import Mathlib

/-!
Verification development for the profile inclusion resolver and requirement
merger of the Redfish Interop Validator (redfish_interop_validator/profile.py).

Python JSON documents are embedded as the inductive type `JValue`.  Arrays and
objects are represented as cons-chains inside the single inductive (so that
every function over documents is structurally recursive and kernel-reducible).
Python `None` and JSON `null` are both `JValue.null`, matching Python where
`json.load` parses `null` to `None`.

Stateful code is embedded by explicit state passing: the process-global
`profile_cache`, the logger, and the trace of URLs requested over the network
live in the record `St`.  The filesystem and the network are an environment
`Env`: directories map to listings of (basename, parsed content), and the
network is an oracle from URL to the fetched body (`none` models any transport
failure, i.e. an exception raised by `urlopen`/`read`/`decode`).  Files on disk
are stored pre-parsed; `json.load` of a stored file is modelled as returning
the stored value (a file whose JSON is invalid would raise an uncaught
exception in the source; such files are outside the model).

Python in-place mutation of dicts is modelled by value threading: functions
return the updated document.  After the resolver recurses into a dependency it
writes the updated dependency back into the cache, matching the aliasing in the
source where the cache holds the very object that the recursion mutates.
Mutations that would flow through shared sub-object references across distinct
documents (possible in Python because `dct[k] = v` copies references) are not
otherwise modelled; no claim below depends on them.

Python exceptions are `Except PyError`: `attributeError` for calling a `dict`
method (`.get`, `.items`) on a non-dict, `typeError` for unhashable set keys,
unorderable comparisons and membership tests on non-containers.  For document
shapes that real profiles never take (e.g. a string used where a mapping is
required) the model raises where Python raises, though the exception class is
approximated by these two constructors.
-/

/-- Embedded JSON/Python value.  Arrays are `anil`/`acons` chains and
objects (Python dicts, insertion ordered) are `onil`/`ocons` chains. -/
inductive JValue where
  | null
  | bool (b : Bool)
  | num (n : Int)
  | str (s : String)
  | anil
  | acons (hd tl : JValue)
  | onil
  | ocons (k : String) (v tl : JValue)
deriving DecidableEq

instance {ε α : Type} [DecidableEq ε] [DecidableEq α] : DecidableEq (Except ε α) := fun x y =>
  match x, y with
  | .ok a, .ok b =>
      if h : a = b then .isTrue (by rw [h]) else .isFalse (by intro hc; cases hc; exact h rfl)
  | .error e, .error f =>
      if h : e = f then .isTrue (by rw [h]) else .isFalse (by intro hc; cases hc; exact h rfl)
  | .ok _, .error _ => .isFalse (by intro hc; cases hc)
  | .error _, .ok _ => .isFalse (by intro hc; cases hc)

/-- Drop the first character of a string (kernel-reducible form). -/
def strTail (s : String) : String := String.mk (s.data.drop 1)

/-- Drop the last character of a string, as Python `s[:-1]` on a nonempty
string (kernel-reducible form of `dropRight 1`). -/
def strChop (s : String) : String := String.mk s.data.dropLast

/-- Split a character list at a separator character (kernel-reducible form of
Python `str.split(sep)` for a one-character separator). -/
def csSplit (sep : Char) : List Char → List (List Char)
  | [] => [[]]
  | c :: cs =>
      if c = sep then [] :: csSplit sep cs
      else
        match csSplit sep cs with
        | [] => [[c]]
        | p :: ps => (c :: p) :: ps

/-- Split a string at a separator character. -/
def strSplit (s : String) (sep : Char) : List String :=
  (csSplit sep s.data).map String.mk

/-- Code-point lexicographic strict order on character lists, as Python
string comparison (kernel-reducible). -/
def csLt : List Char → List Char → Bool
  | [], [] => false
  | [], _ :: _ => true
  | _ :: _, [] => false
  | c :: cs, d :: ds =>
      if c.toNat < d.toNat then true
      else if d.toNat < c.toNat then false
      else csLt cs ds

/-- Python `a < b` on strings. -/
def strLtB (a b : String) : Bool := csLt a.data b.data

/-- Numeric value of a digit run; `none` when empty or not all digits. -/
def digitsValGo : List Char → Nat → Option Nat
  | [], acc => some acc
  | c :: cs, acc => if c.isDigit then digitsValGo cs (acc * 10 + (c.toNat - 48)) else none

/-- Parse a nonempty all-digit character list, as `String.toNat?`. -/
def digitsVal : List Char → Option Nat
  | [] => none
  | cs => digitsValGo cs 0

/-- Build an object chain from a list of key/value pairs. -/
def jobj : List (String × JValue) → JValue
  | [] => .onil
  | (k, v) :: rest => .ocons k v (jobj rest)

/-- Build an array chain from a list of values. -/
def jarr : List JValue → JValue
  | [] => .anil
  | x :: xs => .acons x (jarr xs)

/-- Python `isinstance(x, dict)` (and `isinstance(x, Mapping)` for embedded values). -/
def isDict : JValue → Bool
  | .onil | .ocons _ _ _ => true
  | _ => false

/-- Python `isinstance(x, list)`. -/
def isList : JValue → Bool
  | .anil | .acons _ _ => true
  | _ => false

/-- Python `type(x).__name__` for embedded values. -/
def typeName : JValue → String
  | .null => "NoneType"
  | .bool _ => "bool"
  | .num _ => "int"
  | .str _ => "str"
  | .anil | .acons _ _ => "list"
  | .onil | .ocons _ _ _ => "dict"

/-- Lookup of a key in an object chain: Python `dct[k]`/`dct.get(k)` (first hit). -/
def getKey? : JValue → String → Option JValue
  | .ocons k' v tl, k => if k' = k then some v else getKey? tl k
  | _, _ => none

/-- Python `dct.get(k, default)` on an object chain. -/
def getKeyD (d : JValue) (k : String) (default : JValue) : JValue :=
  (getKey? d k).getD default

/-- Python `k in dct` on an object chain. -/
def hasKey (d : JValue) (k : String) : Bool :=
  (getKey? d k).isSome

/-- Python `dct[k] = v`: replace the first binding of `k` in place, else append. -/
def setKey : JValue → String → JValue → JValue
  | .ocons k' v' tl, k, v =>
      if k' = k then .ocons k' v tl else .ocons k' v' (setKey tl k v)
  | t, k, v => .ocons k v t

/-- Embedded Python exception classes (approximate: the model only tracks that
an exception of roughly this kind is raised, not its message). -/
inductive PyError where
  | typeError
  | attributeError
deriving DecidableEq

/-- Events emitted on the process-wide logger, with their format arguments. -/
inductive LogEvent where
  | typeConflictWarning (key t1 t2 : String)
  | versionBelowMinWarning
  | importError (name : String) (repo : JValue)
  | cyclicalImportError (chain : List JValue) (name : JValue)
  | resourceMissingError (importName resourceName : String)
deriving DecidableEq

/-- The `REQUIREMENT_HIERARCHY` dict lookup `REQUIREMENT_HIERARCHY.get(req, 0)`:
`Mandatory` 4, `Recommended` 3, `IfImplemented` 2, `Supported` 1, `None` 4
(absent is Mandatory per DSP0272), default 0 for other hashable values, and a
`TypeError` when `req` is unhashable (a list or dict). -/
def REQUIREMENT_HIERARCHY : JValue → Except PyError Nat
  | .str "Mandatory" => .ok 4
  | .str "Recommended" => .ok 3
  | .str "IfImplemented" => .ok 2
  | .str "Supported" => .ok 1
  | .null => .ok 4
  | .str _ => .ok 0
  | .bool _ => .ok 0
  | .num _ => .ok 0
  | _ => .error .typeError

/-- The inner helper `get_more_restrictive_requirement(req1, req2, requirement_type)`.
For `ReadRequirement` it scans `[req1, req2]` for a value of hierarchy 4 and
returns the first hit, else returns `req1 if req1 is not None else req2`.
For any other type it returns `min(req1, req2, key=hierarchy)` (CPython `min`
keeps the first argument on ties and evaluates the key left to right). -/
def get_more_restrictive_requirement (req1 req2 : JValue) (requirement_type : String) :
    Except PyError JValue :=
  if requirement_type = "ReadRequirement" then do
    let h1 ← REQUIREMENT_HIERARCHY req1
    if h1 = 4 then pure req1 else do
      let h2 ← REQUIREMENT_HIERARCHY req2
      if h2 = 4 then pure req2 else
        pure (if req1 = .null then req2 else req1)
  else do
    let h1 ← REQUIREMENT_HIERARCHY req1
    let h2 ← REQUIREMENT_HIERARCHY req2
    pure (if h2 < h1 then req2 else req1)

/-- Python `repr` for the embedded values (used by `str()` on containers).
Precise only as far as the model needs it: version parsing of a container repr
never yields a meaningful version either way. -/
def pyRepr : JValue → String
  | .null => "None"
  | .bool true => "True"
  | .bool false => "False"
  | .num n => toString n
  | .str s => "'" ++ s ++ "'"
  | .anil => "[]"
  | .acons x .anil => "[" ++ pyRepr x ++ "]"
  | .acons x xs => "[" ++ pyRepr x ++ ", " ++ strTail (pyRepr xs)
  | .onil => "\x7b\x7d"
  | .ocons k v .onil => "\x7b'" ++ k ++ "': " ++ pyRepr v ++ "\x7d"
  | .ocons k v tl => "\x7b'" ++ k ++ "': " ++ pyRepr v ++ ", " ++ strTail (pyRepr tl)

/-- Python `str(x)` for the embedded values. -/
def pyStr : JValue → String
  | .null => "None"
  | .bool true => "True"
  | .bool false => "False"
  | .num n => toString n
  | .str s => s
  | v => pyRepr v

/-- Modelled from the spec: `splitVersionString` of the missing helper module
(the VersionCodec collaborator).  Parses a dotted version string into an
ordered triple of naturals; tolerates a leading letter v and underscore
separators; components that are not plain numerals count as 0; missing
components count as 0.  Applied to the embedded value via `str()`, so the two
call sites (raw value in `parseProfileInclude`, `str(v)` in
`compare_versions`) share it. -/
def splitVersionString (v : JValue) : Nat × Nat × Nat :=
  let cs := (pyStr v).data
  let cs := match cs with
    | 'v' :: rest => rest
    | _ => cs
  let cs := cs.map (fun c => if c = '_' then '.' else c)
  let nums := (csSplit '.' cs).map (fun p => (digitsVal p).getD 0)
  (nums.getD 0 0, nums.getD 1 0, nums.getD 2 0)

/-- Python tuple comparison on version triples. -/
def verLt : Nat × Nat × Nat → Nat × Nat × Nat → Bool
  | (a, b, c), (d, e, f) =>
      decide (a < d) || (decide (a = d) && (decide (b < e) || (decide (b = e) && decide (c < f))))

/-- The inner helper `compare_versions(ver1, ver2, use_max)`: `None` yields the
other argument, else `max`/`min` by `splitVersionString(str(v))` (CPython
`max(a, b, key=f)` returns `b` only when `f(b)` is strictly greater, and
`min(a, b, key=f)` returns `b` only when `f(b)` is strictly smaller). -/
def compare_versions (ver1 ver2 : JValue) (use_max : Bool) : JValue :=
  if ver1 = .null then ver2
  else if ver2 = .null then ver1
  else
    let k1 := splitVersionString ver1
    let k2 := splitVersionString ver2
    if use_max then (if verLt k1 k2 then ver2 else ver1)
    else (if verLt k2 k1 then ver2 else ver1)

/-- Python `==` between embedded values (never raises for built-in types):
bools equal their numeric value, everything else is structural.  The
order-insensitivity of Python dict equality is not modelled (no claim merges
counts that are dicts). -/
def pyEqB : JValue → JValue → Bool
  | .bool a, .num b => decide ((if a then (1 : Int) else 0) = b)
  | .num a, .bool b => decide (a = (if b then (1 : Int) else 0))
  | .acons x xs, .acons y ys => pyEqB x y && pyEqB xs ys
  | .ocons k v tl, .ocons k' v' tl' => decide (k = k') && pyEqB v v' && pyEqB tl tl'
  | x, y => decide (x = y)

/-- Python `<` between embedded values: numbers (bools are 0/1) and strings
compare; lists compare lexicographically, testing elements with `==` first;
anything else raises `TypeError`. -/
def pyLt : JValue → JValue → Except PyError Bool
  | .num a, .num b => .ok (decide (a < b))
  | .num a, .bool b => .ok (decide (a < (if b then 1 else 0)))
  | .bool a, .num b => .ok (decide ((if a then (1 : Int) else 0) < b))
  | .bool a, .bool b => .ok (decide ((if a then (1 : Int) else 0) < (if b then 1 else 0)))
  | .str a, .str b => .ok (strLtB a b)
  | .anil, .anil => .ok false
  | .anil, .acons _ _ => .ok true
  | .acons _ _, .anil => .ok false
  | .acons x xs, .acons y ys =>
      if pyEqB x y then pyLt xs ys else pyLt x y
  | _, _ => .error .typeError

/-- Python `max(a, b)` on raw values: `b` only when `b > a`. -/
def pyMax (a b : JValue) : Except PyError JValue := do
  let c ← pyLt a b
  pure (if c then b else a)

/-- Python `min(a, b)` on raw values: `b` only when `b < a`. -/
def pyMin (a b : JValue) : Except PyError JValue := do
  let c ← pyLt b a
  pure (if c then b else a)

/-- Insert a key into a key-sorted object chain (ascending, stable). -/
def oinsert (k : String) (v : JValue) : JValue → JValue
  | .ocons k' v' tl =>
      if strLtB k' k then .ocons k' v' (oinsert k v tl) else .ocons k v (.ocons k' v' tl)
  | t => .ocons k v t

/-- Canonical form used by `json.dumps(item, sort_keys=True)`: every object
chain is key-sorted, recursively. -/
def canon : JValue → JValue
  | .acons x xs => .acons (canon x) (canon xs)
  | .ocons k v tl => oinsert k (canon v) (canon tl)
  | v => v

/-- JSON string escaping as in `json.dumps` (the characters that matter for
the documents the model handles). -/
def jescapeChar (c : Char) : String :=
  if c = '"' then "\\\"" else if c = '\\' then "\\\\"
  else if c = '\n' then "\\n" else if c = '\t' then "\\t"
  else if c = '\r' then "\\r" else String.singleton c

/-- Escape a whole string for JSON output. -/
def jescape (s : String) : String := String.join (s.data.map jescapeChar)

/-- Serialization as by `json.dumps` with the default separators: `", "`
between items and `": "` after keys. -/
def jdump : JValue → String
  | .null => "null"
  | .bool true => "true"
  | .bool false => "false"
  | .num n => toString n
  | .str s => "\"" ++ jescape s ++ "\""
  | .anil => "[]"
  | .acons x .anil => "[" ++ jdump x ++ "]"
  | .acons x xs => "[" ++ jdump x ++ ", " ++ strTail (jdump xs)
  | .onil => "\x7b\x7d"
  | .ocons k v .onil => "\x7b\"" ++ jescape k ++ "\": " ++ jdump v ++ "\x7d"
  | .ocons k v tl => "\x7b\"" ++ jescape k ++ "\": " ++ jdump v ++ ", " ++ strTail (jdump tl)

/-- Hashable Python set element as used for de-duplication in `merge_lists`:
strings (covering both raw string items and the `json.dumps` serialization of
dict items, which therefore can collide exactly as in Python), numbers
(covering bools, since in Python `True == 1` also inside a set), and `None`. -/
inductive PKey where
  | knull
  | knum (n : Int)
  | kstr (s : String)
  | karr (v : JValue)
deriving DecidableEq

/-- The key `json.dumps(item, sort_keys=True) if isinstance(item, dict) else item`
computed per item in `merge_lists`; a list item is unhashable and raises
`TypeError` when added to the `seen` set. -/
def itemKey : JValue → Except PyError PKey
  | .null => .ok .knull
  | .bool b => .ok (.knum (if b then 1 else 0))
  | .num n => .ok (.knum n)
  | .str s => .ok (.kstr s)
  | .anil => .error .typeError
  | .acons _ _ => .error .typeError
  | .onil => .ok (.kstr (jdump (canon .onil)))
  | .ocons k v tl => .ok (.kstr (jdump (canon (.ocons k v tl))))

/-- Python list concatenation `list1 + list2` on array chains. -/
def aappend : JValue → JValue → JValue
  | .acons x xs, b => .acons x (aappend xs b)
  | _, b => b

/-- The loop of `merge_lists`: walk `list1 + list2` keeping the first item of
each key, where `seen` carries the keys already emitted. -/
def merge_lists_go (seen : List PKey) : JValue → Except PyError JValue
  | .acons x xs => do
      let k ← itemKey x
      if seen.contains k then merge_lists_go seen xs
      else do
        let r ← merge_lists_go (k :: seen) xs
        pure (.acons x r)
  | _ => .ok .anil

/-- The inner helper `merge_lists(list1, list2)`: merge two lists, removing
duplicates while preserving order. -/
def merge_lists (list1 list2 : JValue) : Except PyError JValue :=
  merge_lists_go [] (aappend list1 list2)

/-- The recursive in-place merge `dict_merge(dct, merge_dct)`, modelled as
returning the updated destination together with the warnings logged.  Branches
in source order per key of `merge_dct`: the `ReadRequirement`/`WriteRequirement`
hierarchy rule (missing destination keys read as `None`), copy of keys absent
from the destination, `MinVersion`/`MaxVersion` via `compare_versions`,
`MinCount`/`MaxCount` via raw `max`/`min`, recursion when both are dicts, list
union via `merge_lists`, a logged warning (keeping the destination) on type
conflict, and silently keeping the destination when the types agree.
Iterating `merge_dct.items()` on a non-dict raises; touching a non-dict
destination raises on the first key. -/
def dict_merge : JValue → JValue → Except PyError (JValue × List LogEvent)
  | dct, .onil => .ok (dct, [])
  | dct, .ocons k v rest => do
      if isDict dct = false then throw PyError.attributeError else
      let step ←
        (if k = "ReadRequirement" ∨ k = "WriteRequirement" then do
          let r ← get_more_restrictive_requirement (getKeyD dct k .null) v k
          pure (setKey dct k r, ([] : List LogEvent))
        else if hasKey dct k = false then pure (setKey dct k v, [])
        else if k = "MinVersion" then pure (setKey dct k (compare_versions (getKeyD dct k .null) v true), [])
        else if k = "MaxVersion" then pure (setKey dct k (compare_versions (getKeyD dct k .null) v false), [])
        else if k = "MinCount" then do
          let m ← pyMax (getKeyD dct k .null) v
          pure (setKey dct k m, [])
        else if k = "MaxCount" then do
          let m ← pyMin (getKeyD dct k .null) v
          pure (setKey dct k m, [])
        else if isDict (getKeyD dct k .null) && isDict v then do
          let (m, ml) ← dict_merge (getKeyD dct k .null) v
          pure (setKey dct k m, ml)
        else if isList (getKeyD dct k .null) && isList v then do
          let m ← merge_lists (getKeyD dct k .null) v
          pure (setKey dct k m, [])
        else if typeName (getKeyD dct k .null) ≠ typeName v then
          pure (dct, [LogEvent.typeConflictWarning k (typeName (getKeyD dct k .null)) (typeName v)])
        else pure (dct, []))
      let (dct2, logs2) ← dict_merge step.1 rest
      pure (dct2, step.2 ++ logs2)
  | _, _ => .error .attributeError

/-- The per-key body of the `dict_merge` loop, stated as its own definition
for the proofs below; it is definitionally the branch inlined in `dict_merge`
(see the decomposition lemma `dict_merge_cons`). -/
def mergeStep (dct : JValue) (k : String) (v : JValue) : Except PyError (JValue × List LogEvent) :=
  if k = "ReadRequirement" ∨ k = "WriteRequirement" then do
    let r ← get_more_restrictive_requirement (getKeyD dct k .null) v k
    pure (setKey dct k r, ([] : List LogEvent))
  else if hasKey dct k = false then pure (setKey dct k v, [])
  else if k = "MinVersion" then pure (setKey dct k (compare_versions (getKeyD dct k .null) v true), [])
  else if k = "MaxVersion" then pure (setKey dct k (compare_versions (getKeyD dct k .null) v false), [])
  else if k = "MinCount" then do
    let m ← pyMax (getKeyD dct k .null) v
    pure (setKey dct k m, [])
  else if k = "MaxCount" then do
    let m ← pyMin (getKeyD dct k .null) v
    pure (setKey dct k m, [])
  else if isDict (getKeyD dct k .null) && isDict v then do
    let (m, ml) ← dict_merge (getKeyD dct k .null) v
    pure (setKey dct k m, ml)
  else if isList (getKeyD dct k .null) && isList v then do
    let m ← merge_lists (getKeyD dct k .null) v
    pure (setKey dct k m, [])
  else if typeName (getKeyD dct k .null) ≠ typeName v then
    pure (dct, [LogEvent.typeConflictWarning k (typeName (getKeyD dct k .null)) (typeName v)])
  else pure (dct, [])

/-- Result of acquiring profile data: a parsed document (`val`, in which
`val .null` is Python `None`) or the raw unparsed bytes returned by a remote
fetch (`bytes`), which the source never runs through `json.loads`. -/
inductive PData where
  | val (v : JValue)
  | bytes (b : String)
deriving DecidableEq

/-- Python truthiness, as used by `if profile_data:`. -/
def truthy : PData → Bool
  | .val .null => false
  | .val (.bool b) => b
  | .val (.num n) => decide (n ≠ 0)
  | .val (.str s) => decide (s ≠ "")
  | .val .anil => false
  | .val (.acons _ _) => true
  | .val .onil => false
  | .val (.ocons _ _ _) => true
  | .bytes b => decide (b ≠ "")

/-- Process state threaded through the resolver: the module-global
`profile_cache`, the log emitted on `my_logger`, and the trace of URLs
requested from the network (in request order). -/
structure St where
  cache : List (String × PData)
  logs : List LogEvent
  fetched : List String
deriving DecidableEq

/-- Record a network request in the trace. -/
def St.addFetch (st : St) (u : String) : St := { st with fetched := st.fetched ++ [u] }

/-- Append one log event. -/
def St.addLog (st : St) (e : LogEvent) : St := { st with logs := st.logs ++ [e] }

/-- Append several log events. -/
def St.addLogs (st : St) (es : List LogEvent) : St := { st with logs := st.logs ++ es }

/-- The empty starting state (fresh process). -/
def St.empty : St := ⟨[], [], []⟩

/-- Lookup in the profile cache, Python `target_file in profile_cache` plus
the subsequent indexing. -/
def cacheLookup : List (String × PData) → String → Option PData
  | [], _ => none
  | (k', v) :: rest, k => if k' = k then some v else cacheLookup rest k

/-- Python `profile_cache[target_file] = data` on the association list. -/
def cacheSet : List (String × PData) → String → PData → List (String × PData)
  | [], k, v => [(k, v)]
  | (k', v') :: rest, k, v =>
      if k' = k then (k', v) :: rest else (k', v') :: cacheSet rest k v

/-- The environment a resolution runs in: the network as an oracle from URL to
response body (`none` is a transport failure) and the filesystem as a mapping
from directory name to its listing of (basename, parsed JSON content). -/
structure Env where
  fetch : String → Option String
  dirs : List (String × List (String × JValue))

/-- Listing of a directory of the environment. -/
def dirListing (env : Env) (dirname : String) : List (String × JValue) :=
  match env.dirs.find? (fun p => p.1 = dirname) with
  | some p => p.2
  | none => []

/-- Match a literal character sequence at the front, returning the rest. -/
def litC : List Char → List Char → Option (List Char)
  | [], s => some s
  | c :: cs, d :: ds => if c = d then litC cs ds else none
  | _ :: _, [] => none

/-- Consume further digits. -/
def dropDigits : List Char → List Char
  | c :: cs => if c.isDigit then dropDigits cs else c :: cs
  | [] => []

/-- Match `[0-9]+` at the front (greedy; the pattern's digit runs are always
followed by a non-digit, so greedy matching equals regex backtracking). -/
def digitsC : List Char → Option (List Char)
  | c :: cs => if c.isDigit then some (dropDigits cs) else none
  | [] => none

/-- Modelled from the spec: `versionpattern` of the missing helper module is
the documented vMAJOR_MINOR_PATCH token, the regex `v[0-9]+_[0-9]+_[0-9]+`. -/
def vtokC (s : List Char) : Option (List Char) := do
  let s ← litC ['v'] s
  let s ← digitsC s
  let s ← litC ['_'] s
  let s ← digitsC s
  let s ← litC ['_'] s
  digitsC s

/-- Match the interleaved pattern `pattern.join(name.split('.'))` at the
front: the name's dot-separated parts joined by `\.versionpattern\.`. -/
def interleavedC : List String → List Char → Option (List Char)
  | [], s => some s
  | [p], s => litC p.data s
  | p :: ps, s => do
      let s ← litC p.data s
      let s ← litC ['.'] s
      let s ← vtokC s
      let s ← litC ['.'] s
      interleavedC ps s

/-- Scan of `re.findall` for the interleaved pattern: non-overlapping,
leftmost matches; on failure advance one character (fuelled by the input
length so the recursion is structural). -/
def findallGo (parts : List String) : Nat → List Char → List String
  | 0, _ => []
  | _, [] => []
  | fuel + 1, c :: cs =>
      match interleavedC parts (c :: cs) with
      | some rest =>
          let len := (c :: cs).length - rest.length
          if len = 0 then String.mk [] :: findallGo parts fuel cs
          else String.mk ((c :: cs).take len) :: findallGo parts fuel rest
      | none => findallGo parts fuel cs

/-- All matches of the interleaved name/version pattern in a string. -/
def findall (parts : List String) (s : String) : List String :=
  findallGo parts (s.data.length + 1) s.data

/-- Python `glob.glob(os.path.join(dirname, '*.json'))` on a listing:
basenames ending in `.json`, hidden files excluded. -/
def globJson (listing : List (String × JValue)) : List (String × JValue) :=
  listing.filter (fun p =>
    decide (p.1.data.reverse.take 5 = ['n', 'o', 's', 'j', '.']) &&
    decide (p.1.data.head? ≠ some '.'))

/-- The generator `getProfilesMatchingName(name, directories)`: for each
directory, every `*.json` file whose basename has a prefix matching the
compiled alternation of the version-interleaved pattern and the literal name
(`re.match` anchors at the start only).  Yields (full path, parsed content). -/
def getProfilesMatchingName (env : Env) (name : String) (directories : List String) :
    List (String × JValue) :=
  let parts := strSplit name '.'
  (directories.map (fun dirname =>
    (globJson (dirListing env dirname)).filterMap (fun p =>
      if (interleavedC parts p.1.data).isSome || (litC name.data p.1.data).isSome
      then some (dirname ++ "/" ++ p.1, p.2) else none))).flatten

/-- The documented default repository URL (module constant `defaultrepository`;
`getProfileFromRepo` repeats the literal). -/
def defaultrepository : String := "http://redfish.dmtf.org/profiles"

/-- The remote lookup `getProfileFromRepo(profilename, repo)`.  Fetches the
repository index, finds all filenames matching the version-interleaved
pattern, chops the last character of each (`filename[:-1]` in the source),
takes the plain string `max`, fetches that file and returns its raw bytes.
The whole body is wrapped in `try/except`, so every failure (transport error,
non-string repository value) returns `None`; nothing is ever parsed. -/
def getProfileFromRepo (env : Env) (profilename : String) (repo : JValue) (st : St) :
    PData × St :=
  let repoUrl? : Option String :=
    match repo with
    | .null => some defaultrepository
    | .str s => some s
    | _ => none
  match repoUrl? with
  | none => (.val .null, st)
  | some repoUrl =>
    let st := st.addFetch repoUrl
    match env.fetch repoUrl with
    | none => (.val .null, st)
    | some listing =>
        let filelist := findall (strSplit profilename '.') listing
        let best? := filelist.foldl (fun acc f =>
          let f := strChop f
          match acc with
          | none => some f
          | some a => some (if strLtB a f then f else a)) none
        match best? with
        | none => (.val .null, st)
        | some best =>
            let url := repoUrl ++ "/" ++ best
            let st := st.addFetch url
            match env.fetch url with
            | none => (.val .null, st)
            | some b => (.bytes b, st)

/-- Python `dct.get(k, default)` raising `AttributeError` on a non-dict. -/
def pyGetD (d : JValue) (k : String) (default : JValue) : Except PyError JValue :=
  if isDict d then .ok (getKeyD d k default) else .error .attributeError

/-- The loop over local candidate files in `parseProfileInclude`: track the
running maximum `ProfileVersion` and keep the latest candidate whose version
equals the running maximum (or the first one seen, `data is None`). -/
def localScan : List (String × JValue) → (Nat × Nat × Nat) → PData →
    Except PyError ((Nat × Nat × Nat) × PData)
  | [], maxv, acc => .ok (maxv, acc)
  | (_, content) :: rest, maxv, acc => do
      let pv ← pyGetD content "ProfileVersion" (.str "1.0.0")
      let myv := splitVersionString pv
      let maxv := if verLt maxv myv then myv else maxv
      let acc := if myv = maxv ∨ acc = .val .null then .val content else acc
      localScan rest maxv acc

/-- The locator `parseProfileInclude(target_name, target_profile_info,
directories, online)`: compute the minimum version from the reference, build
the cache key `name + '.json'`, short-circuit on a cache hit, otherwise try
the remote repository (only when `online`), fall back to the best local
match, log an import error if nothing is found, and store the outcome in
the cache before returning it. -/
def parseProfileInclude (env : Env) (target_name : String) (target_profile_info : JValue)
    (directories : List String) (online : Bool) (st : St) : Except PyError (PData × St) := do
  let min_version := splitVersionString (← pyGetD target_profile_info "MinVersion" (.str "1.0.0"))
  let target_file := target_name ++ "." ++ "json"
  match cacheLookup st.cache target_file with
  | some d => pure (d, st)
  | none =>
    let repo := (← pyGetD target_profile_info "Repository" .null)
    let (data, st) := if online then getProfileFromRepo env target_file repo st else (.val .null, st)
    match data with
    | .val .null =>
        match getProfilesMatchingName env target_file directories with
        | [] =>
            let st := st.addLog (.importError target_name repo)
            pure (.val .null, { st with cache := cacheSet st.cache target_file (.val .null) })
        | t :: ts => do
            let (max_version, data) ← localScan (t :: ts) (1, 0, 0) (.val .null)
            let st := if verLt max_version min_version then st.addLog .versionBelowMinWarning else st
            pure (data, { st with cache := cacheSet st.cache target_file data })
    | d => pure (d, { st with cache := cacheSet st.cache target_file d })

/-- Errors of a resolver run: an embedded Python exception, or exhaustion of
the structural recursion fuel (the source has no such bound; every theorem
about the resolver supplies enough fuel). -/
inductive RunErr where
  | py (e : PyError)
  | noFuel
deriving DecidableEq

/-- Lift an embedded Python exception into a resolver result. -/
def liftPy {α : Type} : Except PyError α → Except RunErr α
  | .ok a => .ok a
  | .error e => .error (.py e)

/-- The resolver's result quintuple: `profile_includes`, `required_by_resource`,
the mutated profile, the (shared, mutated) chain, and the process state. -/
def GPRes : Type := List PData × List PData × PData × List JValue × St

instance : DecidableEq GPRes := by
  unfold GPRes
  infer_instance

/-- Membership of a value in a Python list of values (`profile_name in chain`). -/
def jmem (x : JValue) (l : List JValue) : Bool := l.any (fun y => decide (y = x))

/-- The loop merging an included profile's `Resources` into the main profile:
for each resource type of the dependency, ensure the key exists on the main
profile's `Resources` dict and `dict_merge` the dependency's block into it.
Takes and returns the whole main profile dict.  A non-dict `Resources` value
on the main profile raises (Python would raise on the membership test or the
index of the non-dict). -/
def mergeIncludedResources : JValue → JValue → Except PyError (JValue × List LogEvent)
  | .ocons rt rd rest, d => do
      let resources := getKeyD d "Resources" .onil
      if isDict resources = false then throw PyError.typeError else
      let resources := if hasKey resources rt then resources else setKey resources rt .onil
      let (merged, ml) ← dict_merge (getKeyD resources rt .null) rd
      let d := setKey d "Resources" (setKey resources rt merged)
      let (d2, ml2) ← mergeIncludedResources rest d
      pure (d2, ml ++ ml2)
  | .onil, d => .ok (d, [])
  | _, _ => .error .attributeError

/-- The inner loop over one modifying object's `RequiredResourceProfile`
entries: resolve each dependency; when it is truthy, read its `Resources`
(`.get` without default, so `None` when absent), test membership of this
resource type (a `TypeError` on `None` or another non-dict, as in Python),
and either merge that resource's block into the object and record the
dependency, or log the missing-resource error and move on. -/
def foldScoped (env : Env) (dirs : List String) (online : Bool) (resource_name : String) :
    JValue → JValue → St → Except RunErr (JValue × List PData × St)
  | .ocons target_name tpi rest, obj, st => do
      let (pd, st1) ← liftPy (parseProfileInclude env target_name tpi dirs online st)
      if truthy pd then
        match pd with
        | .bytes _ => .error (.py .attributeError)
        | .val p => do
          if isDict p = false then throw (RunErr.py .attributeError) else
          let target_resources := getKeyD p "Resources" .null
          if isDict target_resources = false then throw (RunErr.py .typeError) else
          if hasKey target_resources resource_name then do
            let (merged, ml) ← liftPy (dict_merge obj (getKeyD target_resources resource_name .null))
            let (obj2, reqs2, st2) ←
              foldScoped env dirs online resource_name rest merged (st1.addLogs ml)
            pure (obj2, pd :: reqs2, st2)
          else
            foldScoped env dirs online resource_name rest obj
              (st1.addLog (.resourceMissingError target_name resource_name))
      else foldScoped env dirs online resource_name rest obj st1
  | .onil, obj, st => .ok (obj, [], st)
  | _, _, _ => .error (.py .attributeError)

/-- Processing of one modifying object (the resource block itself or one use
case): iterate its `RequiredResourceProfile` mapping (default empty). -/
def processInnerObject (env : Env) (dirs : List String) (online : Bool)
    (resource_name : String) (obj : JValue) (st : St) :
    Except RunErr (JValue × List PData × St) := do
  let rp ← liftPy (pyGetD obj "RequiredResourceProfile" .onil)
  foldScoped env dirs online resource_name rp obj st

/-- Iteration over the `UseCases` list, rebuilding it with each use case's
scoped imports applied (`for inner_object in modifying_objects`). -/
def processModList (env : Env) (dirs : List String) (online : Bool) (resource_name : String) :
    JValue → St → Except RunErr (JValue × List PData × St)
  | .acons x xs, st => do
      let (x2, r1, st1) ← processInnerObject env dirs online resource_name x st
      let (xs2, r2, st2) ← processModList env dirs online resource_name xs st1
      pure (.acons x2 xs2, r1 ++ r2, st2)
  | .anil, st => .ok (.anil, [], st)
  | _, _ => .error (.py .attributeError)

/-- Processing of one resource: the modifying objects are the resource itself
when it has no `UseCases` key, else the elements of its `UseCases` list. -/
def processResource (env : Env) (dirs : List String) (online : Bool)
    (resource_name : String) (resource : JValue) (st : St) :
    Except RunErr (JValue × List PData × St) := do
  if isDict resource = false then throw (RunErr.py .typeError) else
  if hasKey resource "UseCases" = false then
    processInnerObject env dirs online resource_name resource st
  else do
    let (ucs, reqs, st1) ←
      processModList env dirs online resource_name (getKeyD resource "UseCases" .null) st
    pure (setKey resource "UseCases" ucs, reqs, st1)

/-- The loop over `profile.get('Resources', {}).items()` applying the
resource-scoped imports, rebuilding the `Resources` mapping in order. -/
def foldResourcesScoped (env : Env) (dirs : List String) (online : Bool) :
    JValue → St → Except RunErr (JValue × List PData × St)
  | .ocons rname rv rest, st => do
      let (rv2, reqs1, st1) ← processResource env dirs online rname rv st
      let (rest2, reqs2, st2) ← foldResourcesScoped env dirs online rest st1
      pure (.ocons rname rv2 rest2, reqs1 ++ reqs2, st2)
  | .onil, st => .ok (.onil, [], st)
  | _, _ => .error (.py .attributeError)

/-- The loop over `profile.get('RequiredProfiles', {}).items()`: resolve each
dependency; when truthy, ensure the main profile has a `Resources` dict, merge
the dependency's `Resources` into it, then recurse into the dependency (through
the `recurse` knot, which the source ties with remote lookup defaulted off) and
collect its results.  The recursion mutates the dependency document that the
cache holds, so the updated dependency is written back to the cache and is what
`profile_includes` records. -/
def foldIncludes
    (recurse : PData → List String → List JValue → St → Except RunErr GPRes)
    (env : Env) (dirs : List String) (online : Bool) :
    JValue → JValue → List JValue → St →
    Except RunErr (List PData × List PData × JValue × List JValue × St)
  | .ocons target_name tpi rest, d, chain, st => do
      let (pd, st1) ← liftPy (parseProfileInclude env target_name tpi dirs online st)
      if truthy pd then do
        let d1 := if hasKey d "Resources" then d else setKey d "Resources" .onil
        let inc ← liftPy (match pd with
          | .val p => pyGetD p "Resources" .onil
          | .bytes _ => .error .attributeError)
        let (d2, mlogs) ← liftPy (mergeIncludedResources inc d1)
        let st2 := st1.addLogs mlogs
        let (innerInc, innerReqs, child, chain2, st3) ← recurse pd dirs chain st2
        let st4 := { st3 with cache := cacheSet st3.cache (target_name ++ "." ++ "json") child }
        let (restInc, restReqs, d3, chain3, st5) ←
          foldIncludes recurse env dirs online rest d2 chain2 st4
        pure ((child :: innerInc) ++ restInc, innerReqs ++ restReqs, d3, chain3, st5)
      else foldIncludes recurse env dirs online rest d chain st1
  | .onil, d, chain, st => .ok ([], [], d, chain, st)
  | _, _, _, _ => .error (.py .attributeError)

/-- The body of `getProfiles(profile, directories, chain, online)`, abstracted
over the recursive call (`recurse`): read `ProfileName`, normalize the chain
default, return two empty sequences on a suspected cyclical import (logged),
append the name to the shared chain, process `RequiredProfiles`, then process
the resource-scoped `RequiredResourceProfile` imports over the updated
`Resources`. -/
def getProfilesBody
    (recurse : PData → List String → List JValue → St → Except RunErr GPRes)
    (env : Env) (profile : PData) (dirs : List String) (chain : Option (List JValue))
    (online : Bool) (st : St) : Except RunErr GPRes :=
  match profile with
  | .bytes _ => .error (.py .attributeError)
  | .val d =>
    if isDict d = false then .error (.py .attributeError) else
    let profile_name := getKeyD d "ProfileName" .null
    let chain := chain.getD []
    if jmem profile_name chain then
      .ok ([], [], .val d, chain, st.addLog (.cyclicalImportError chain profile_name))
    else
      let chain := chain ++ [profile_name]
      let rp := getKeyD d "RequiredProfiles" .onil
      do
        let (incs, reqs, d1, chain1, st1) ← foldIncludes recurse env dirs online rp d chain st
        let pr := getKeyD d1 "Resources" .onil
        let (pr2, reqs2, st2) ← foldResourcesScoped env dirs online pr st1
        let d2 := if hasKey d1 "Resources" then setKey d1 "Resources" pr2 else d1
        pure (incs, reqs ++ reqs2, .val d2, chain1, st2)

/-- The resolver `getProfiles(profile, directories, chain=None, online=False)`.
The recursive call in the source is `getProfiles(profile_data, directories,
chain)`: `online` is not forwarded and so defaults to `False`, which is where
the knot below passes `false`. -/
def getProfiles (env : Env) : Nat → PData → List String → Option (List JValue) → Bool → St →
    Except RunErr GPRes
  | 0, _, _, _, _, _ => .error .noFuel
  | fuel + 1, profile, dirs, chain, online, st =>
      getProfilesBody (fun p d c s => getProfiles env fuel p d (some c) false s)
        env profile dirs chain online st

/-- Modelled from the spec, for comparison with `getProfiles`: the same
resolver parameterized by the flag `childOnline` used when resolving a
dependency's own dependencies (the spec's step of recursing into transitive
dependencies).  `getProfilesG env fuel p dirs chain online childOnline` runs
the identical body but ties the recursive knot with `childOnline`. -/
def getProfilesG (env : Env) : Nat → PData → List String → Option (List JValue) → Bool → Bool →
    St → Except RunErr GPRes
  | 0, _, _, _, _, _, _ => .error .noFuel
  | fuel + 1, profile, dirs, chain, online, childOnline, st =>
      getProfilesBody (fun p d c s => getProfilesG env fuel p d (some c) childOnline childOnline s)
        env profile dirs chain online st

/-- Claim-side total de-duplication key: mappings are compared via the
canonical (key-sorted) serialization, scalars via Python value equality
(bools equal their numeric value); an array maps to itself (this constructor
is unreachable for sequences without sequence elements). -/
def totalKey : JValue → PKey
  | .null => .knull
  | .bool b => .knum (if b then 1 else 0)
  | .num n => .knum n
  | .str s => .kstr s
  | .anil => .karr .anil
  | .acons h t => .karr (.acons h t)
  | .onil => .kstr (jdump (canon .onil))
  | .ocons k v tl => .kstr (jdump (canon (.ocons k v tl)))

/-- Union of a sequence with itself-preserving first-seen order, keeping the
first element of each key class (the claim's description of sequence merge). -/
def unionFirstSeenGo (seen : List PKey) : JValue → JValue
  | .acons x xs =>
      if seen.contains (totalKey x) then unionFirstSeenGo seen xs
      else .acons x (unionFirstSeenGo (totalKey x :: seen) xs)
  | _ => .anil

/-- First-seen union of a whole sequence. -/
def unionFirstSeen (a : JValue) : JValue := unionFirstSeenGo [] a

/-- A proper array none of whose elements is itself a sequence. -/
def noSeqElems : JValue → Bool
  | .anil => true
  | .acons x xs => !(isList x) && noSeqElems xs
  | _ => false

/-- Dependency profile for the concrete scenarios: `Dep` carries only a
`Chassis` resource. -/
def depChassis : JValue :=
  jobj [("ProfileName", .str "Dep"),
        ("Resources", jobj [("Chassis", jobj [("ReadRequirement", .str "Recommended")])])]

/-- Offline environment with the single local file `d/Dep.json`. -/
def envLocalDep : Env := ⟨fun _ => none, [("d", [("Dep.json", depChassis)])]⟩

/-- Profile requesting resource `Fan` from `Dep` via a resource-scoped import;
`Dep` has no `Fan` resource. -/
def profileFanScoped : JValue :=
  jobj [("ProfileName", .str "A"),
        ("Resources", jobj [("Fan", jobj [("RequiredResourceProfile", jobj [("Dep", jobj [])])])])]

/-- Profile `B` requiring `C` at the whole-profile level. -/
def profileB : JValue :=
  jobj [("ProfileName", .str "B"), ("RequiredProfiles", jobj [("C", jobj [])])]

/-- Profile `A` requiring `B` at the whole-profile level. -/
def profileA : JValue :=
  jobj [("ProfileName", .str "A"), ("RequiredProfiles", jobj [("B", jobj [])])]

/-- Environment where `B.json` exists locally and the repository index lists
`C.v1_0_0.json`; the file fetch answers on the chopped filename the source
actually requests, returning raw bytes. -/
def envRemoteC : Env :=
  ⟨fun u =>
    if u = "http://redfish.dmtf.org/profiles" then some "C.v1_0_0.json "
    else if u = "http://redfish.dmtf.org/profiles/C.v1_0_0.jso" then some "RAW"
    else none,
   [("d", [("B.json", profileB)])]⟩

/-- Environment whose network always fails. -/
def envNoNet : Env := ⟨fun _ => none, []⟩

/-! Helper lemmas shared by the claim theorems. -/

theorem exBind_ok {ε α β : Type} (a : α) (f : α → Except ε β) :
    (Except.ok a >>= f : Except ε β) = f a := rfl

theorem exBind_err {ε α β : Type} (e : ε) (f : α → Except ε β) :
    ((Except.error e : Except ε α) >>= f) = Except.error e := rfl

theorem exPure_ok {ε α : Type} (a : α) : (pure a : Except ε α) = Except.ok a := rfl

theorem dict_merge_onil (dct : JValue) : dict_merge dct .onil = .ok (dct, []) := rfl

/-- Decomposition of one iteration of the `dict_merge` loop through the
per-key step `mergeStep` (definitional). -/
theorem dict_merge_cons (dct : JValue) (k : String) (v rest : JValue) :
    dict_merge dct (.ocons k v rest) =
      (if isDict dct = false then .error .attributeError else do
        let step ← mergeStep dct k v
        let r ← dict_merge step.1 rest
        pure (r.1, step.2 ++ r.2)) := rfl

theorem getKey?_setKey_self (d : JValue) (k : String) (v : JValue) :
    getKey? (setKey d k v) k = some v := by
  induction d with
  | ocons k' v' tl _ ihtl =>
      by_cases h : k' = k
      · simp [setKey, h, getKey?]
      · simp [setKey, h, getKey?, ihtl]
  | _ => simp [setKey, getKey?]

theorem typeName_eq_of_isDict {x y : JValue} (hx : isDict x = true) (hy : isDict y = true) :
    typeName x = typeName y := by
  cases x <;> cases y <;> simp_all [isDict, typeName]

theorem typeName_eq_of_isList {x y : JValue} (hx : isList x = true) (hy : isList y = true) :
    typeName x = typeName y := by
  cases x <;> cases y <;> simp_all [isList, typeName]

theorem itemKey_totalKey {x : JValue} (h : isList x = false) : itemKey x = .ok (totalKey x) := by
  cases x <;> simp_all [isList, itemKey, totalKey]

theorem noSeq_cons {x xs : JValue} (h : noSeqElems (.acons x xs) = true) :
    isList x = false ∧ noSeqElems xs = true := by
  simp [noSeqElems] at h
  exact ⟨by simpa using h.1, h.2⟩

theorem noSeq_aappend {a b : JValue} (ha : noSeqElems a = true) (hb : noSeqElems b = true) :
    noSeqElems (aappend a b) = true := by
  induction a with
  | acons x xs _ ihtl =>
      obtain ⟨h1, h2⟩ := noSeq_cons ha
      simp [aappend, noSeqElems, h1, ihtl h2]
  | anil => simpa [aappend] using hb
  | _ => simp_all [noSeqElems]

/-- On sequences without sequence elements the `merge_lists` loop computes the
first-seen union (whatever keys were already seen). -/
theorem mergeGo_unionFirstSeen (a : JValue) : ∀ (seen : List PKey), noSeqElems a = true →
    merge_lists_go seen a = .ok (unionFirstSeenGo seen a) := by
  induction a with
  | acons x xs _ ihtl =>
      intro seen ha
      obtain ⟨h1, h2⟩ := noSeq_cons ha
      rw [merge_lists_go, itemKey_totalKey h1]
      simp only [exBind_ok]
      by_cases hc : totalKey x ∈ seen
      · simp [hc, unionFirstSeenGo, ihtl seen h2]
      · simp [hc, unionFirstSeenGo, ihtl (totalKey x :: seen) h2, exBind_ok, exPure_ok]
  | anil => intro seen _; rfl
  | _ => intro seen h; simp [noSeqElems] at h

theorem cacheLookup_cacheSet_self (c : List (String × PData)) (k : String) (v : PData) :
    cacheLookup (cacheSet c k v) k = some v := by
  induction c with
  | nil => simp [cacheSet, cacheLookup]
  | cons p rest ih =>
      by_cases h : p.1 = k
      · simp [cacheSet, h, cacheLookup]
      · simp [cacheSet, h, cacheLookup, ih]

/-- C1 counterexample: merging a destination `ReadRequirement` of `Supported`
with a source value of `Recommended` yields `Supported` (the destination), not
`Recommended` as the claim states. -/
theorem C1_counterexample :
    get_more_restrictive_requirement (.str "Supported") (.str "Recommended") "ReadRequirement" =
      .ok (.str "Supported") ∧
    dict_merge (jobj [("ReadRequirement", .str "Supported")])
        (jobj [("ReadRequirement", .str "Recommended")]) =
      .ok (jobj [("ReadRequirement", .str "Supported")], []) ∧
    JValue.str "Supported" ≠ JValue.str "Recommended" :=
  ⟨by decide, by decide, by decide⟩

/-- C1 (amended): for every merge of the `ReadRequirement` key, if either
input is `Mandatory` or absent (hierarchy 4) the result is the first such
input, destination checked first; if neither is, the result is the
destination's value (the source only when the destination is absent, which
cannot happen outside hierarchy 4).  The second conjunct ties a
`ReadRequirement` merge through `dict_merge` to this helper. -/
theorem C1_amended_read_requirement :
    (∀ r1 r2 h1 h2, REQUIREMENT_HIERARCHY r1 = .ok h1 → REQUIREMENT_HIERARCHY r2 = .ok h2 →
      get_more_restrictive_requirement r1 r2 "ReadRequirement" =
        .ok (if h1 = 4 then r1 else if h2 = 4 then r2 else if r1 = .null then r2 else r1)) ∧
    (∀ dct v, isDict dct = true →
      dict_merge dct (.ocons "ReadRequirement" v .onil) =
        (get_more_restrictive_requirement (getKeyD dct "ReadRequirement" .null) v
            "ReadRequirement").map
          (fun r => (setKey dct "ReadRequirement" r, ([] : List LogEvent)))) := by
  constructor
  · intro r1 r2 h1 h2 e1 e2
    unfold get_more_restrictive_requirement
    simp only [if_pos rfl, e1, e2, exBind_ok, exPure_ok]
    by_cases hc : h1 = 4 <;> by_cases hc2 : h2 = 4 <;> simp [hc, hc2]
  · intro dct v hd
    rw [dict_merge_cons, if_neg (by simp [hd])]
    unfold mergeStep
    rw [if_pos (Or.inl rfl)]
    cases hg : get_more_restrictive_requirement (getKeyD dct "ReadRequirement" .null) v
        "ReadRequirement" <;>
      simp [hg, exBind_ok, exBind_err, exPure_ok, dict_merge_onil, Except.map]

/-- C1 witness: the amended statement applied at destination `Supported`,
source `Recommended`. -/
theorem C1_amended_read_requirement_witness :
    get_more_restrictive_requirement (.str "Supported") (.str "Recommended") "ReadRequirement" =
      .ok (.str "Supported") ∧
    dict_merge (jobj [("ReadRequirement", .str "Supported")])
        (.ocons "ReadRequirement" (.str "Recommended") .onil) =
      (get_more_restrictive_requirement
          (getKeyD (jobj [("ReadRequirement", .str "Supported")]) "ReadRequirement" .null)
          (.str "Recommended") "ReadRequirement").map
        (fun r => (setKey (jobj [("ReadRequirement", .str "Supported")]) "ReadRequirement" r,
          ([] : List LogEvent))) :=
  ⟨(C1_amended_read_requirement.1 (.str "Supported") (.str "Recommended") 1 3
      (by decide) (by decide)).trans (by decide),
   C1_amended_read_requirement.2 (jobj [("ReadRequirement", .str "Supported")])
      (.str "Recommended") (by decide)⟩

/-- C4: for every merge of the `WriteRequirement` key the result is the input
with the lowest hierarchy score (the destination on ties), and in particular
`dict_merge` of `Mandatory` with `Supported` yields `Supported`. -/
theorem C4_write_requirement_least_restrictive :
    (∀ r1 r2 h1 h2, REQUIREMENT_HIERARCHY r1 = .ok h1 → REQUIREMENT_HIERARCHY r2 = .ok h2 →
      get_more_restrictive_requirement r1 r2 "WriteRequirement" =
        .ok (if h2 < h1 then r2 else r1) ∧
      REQUIREMENT_HIERARCHY (if h2 < h1 then r2 else r1) = .ok (Nat.min h1 h2)) ∧
    dict_merge (jobj [("WriteRequirement", .str "Mandatory")])
        (jobj [("WriteRequirement", .str "Supported")]) =
      .ok (jobj [("WriteRequirement", .str "Supported")], []) := by
  constructor
  · intro r1 r2 h1 h2 e1 e2
    constructor
    · unfold get_more_restrictive_requirement
      rw [if_neg (by decide)]
      simp only [e1, e2, exBind_ok, exPure_ok]
    · by_cases hc : h2 < h1
      · have hle : ¬ h1 ≤ h2 := by omega
        simp [hc, e2, Nat.min_def, hle]
      · have hle : h1 ≤ h2 := by omega
        simp [hc, e1, Nat.min_def, hle]
  · decide

/-- C4 witness: `Mandatory` (4) merged with `Supported` (1) yields
`Supported`, whose hierarchy is `min 4 1`. -/
theorem C4_write_requirement_least_restrictive_witness :
    get_more_restrictive_requirement (.str "Mandatory") (.str "Supported") "WriteRequirement" =
      .ok (.str "Supported") ∧
    REQUIREMENT_HIERARCHY (.str "Supported") = .ok 1 := by
  have h := C4_write_requirement_least_restrictive.1 (.str "Mandatory") (.str "Supported") 4 1
    (by decide) (by decide)
  exact ⟨h.1.trans (by decide), (h.2.symm.trans (by decide)).symm⟩

/-- C7: a key present in both documents whose values have mismatched types
(and no special rule) keeps the destination's value, records one warning
naming the key and both type names, raises nothing, and the merge continues
over the remaining keys. -/
theorem C7_type_conflict_keeps_destination :
    ∀ (dct : JValue) (k : String) (v w rest : JValue),
    isDict dct = true →
    k ≠ "ReadRequirement" → k ≠ "WriteRequirement" → k ≠ "MinVersion" →
    k ≠ "MaxVersion" → k ≠ "MinCount" → k ≠ "MaxCount" →
    getKey? dct k = some w → typeName w ≠ typeName v →
    dict_merge dct (.ocons k v rest) =
      (dict_merge dct rest).map
        (fun p => (p.1, LogEvent.typeConflictWarning k (typeName w) (typeName v) :: p.2)) := by
  intro dct k v w rest hd hk1 hk2 hk3 hk4 hk5 hk6 hw ht
  have hnd : (isDict (getKeyD dct k .null) && isDict v) = false := by
    rw [getKeyD, hw]
    cases hvd : isDict v
    · simp
    · cases hwd : isDict w
      · simp [hwd]
      · exact absurd (typeName_eq_of_isDict hwd hvd) ht
  have hnl : (isList (getKeyD dct k .null) && isList v) = false := by
    rw [getKeyD, hw]
    cases hvd : isList v
    · simp
    · cases hwd : isList w
      · simp [hwd]
      · exact absurd (typeName_eq_of_isList hwd hvd) ht
  rw [dict_merge_cons, if_neg (by simp [hd])]
  unfold mergeStep
  rw [if_neg (by simp [hk1, hk2]), if_neg (by simp [hasKey, hw]), if_neg hk3, if_neg hk4,
    if_neg hk5, if_neg hk6, if_neg (by simp [hnd]), if_neg (by simp [hnl]),
    if_pos (by rw [getKeyD, hw]; exact ht)]
  rw [getKeyD, hw]
  cases hres : dict_merge dct rest <;>
    simp [hres, Except.map, exBind_ok, exBind_err, exPure_ok]

/-- C7 witness: an `int` destination meeting a `str` source under key `a`
warns, keeps `1`, and the merge continues over the remaining key `b`. -/
theorem C7_type_conflict_keeps_destination_witness :
    dict_merge (jobj [("a", .num 1)]) (.ocons "a" (.str "x") (.ocons "b" (.num 2) .onil)) =
      (dict_merge (jobj [("a", .num 1)]) (.ocons "b" (.num 2) .onil)).map
        (fun p => (p.1, LogEvent.typeConflictWarning "a" "int" "str" :: p.2)) :=
  C7_type_conflict_keeps_destination (jobj [("a", .num 1)]) "a" (.str "x") (.num 1)
    (.ocons "b" (.num 2) .onil) (by decide) (by decide) (by decide) (by decide) (by decide)
    (by decide) (by decide) (by decide) (by decide)

/-- C9: when the destination lacks `ReadRequirement` and the source carries a
non-Mandatory value, `dict_merge` sets the key to an explicit `None`: it
becomes present with value null, not absent and not the source's value. -/
theorem C9_absent_read_requirement_becomes_null :
    ∀ (dct v : JValue),
    isDict dct = true →
    getKey? dct "ReadRequirement" = none →
    (v = .str "Recommended" ∨ v = .str "IfImplemented" ∨ v = .str "Supported") →
    dict_merge dct (.ocons "ReadRequirement" v .onil) =
      .ok (setKey dct "ReadRequirement" .null, []) ∧
    getKey? (setKey dct "ReadRequirement" .null) "ReadRequirement" = some .null ∧
    JValue.null ≠ v := by
  intro dct v hd habs hv
  refine ⟨?_, getKey?_setKey_self dct "ReadRequirement" .null, ?_⟩
  · rw [dict_merge_cons, if_neg (by simp [hd])]
    unfold mergeStep
    rw [if_pos (Or.inl rfl)]
    simp [getKeyD, habs, get_more_restrictive_requirement, REQUIREMENT_HIERARCHY,
      exBind_ok, exPure_ok, dict_merge_onil]
  · rcases hv with h | h | h <;> subst h <;> decide

/-- C9 witness: an empty destination merged with `ReadRequirement:
Recommended` ends with the key present and null. -/
theorem C9_absent_read_requirement_becomes_null_witness :
    dict_merge .onil (.ocons "ReadRequirement" (.str "Recommended") .onil) =
      .ok (setKey .onil "ReadRequirement" .null, []) ∧
    getKey? (setKey .onil "ReadRequirement" .null) "ReadRequirement" = some .null :=
  ⟨(C9_absent_read_requirement_becomes_null .onil (.str "Recommended") (by decide) (by decide)
      (Or.inl rfl)).1,
   (C9_absent_read_requirement_becomes_null .onil (.str "Recommended") (by decide) (by decide)
      (Or.inl rfl)).2.1⟩

/-- C8 counterexample: a sequence element that is itself a sequence is
unhashable, so the merge raises a `TypeError` instead of producing the union
(which would be `[[1]]`). -/
theorem C8_counterexample :
    merge_lists (jarr [jarr [.num 1]]) (jarr [jarr [.num 1]]) = .error .typeError ∧
    dict_merge (jobj [("k", jarr [jarr [.num 1]])]) (jobj [("k", jarr [jarr [.num 1]])]) =
      .error .typeError :=
  ⟨by decide, by decide⟩

/-- C8 (amended): for sequences whose elements are not themselves sequences,
the merge is their union preserving first-seen order, with duplicates removed
by the code's key equality (mappings via the canonical key-sorted
serialization, hence order-independently; scalars via Python value equality);
`[A,B]` with `[B,C]` gives `[A,B,C]`, and two key-orderings of one mapping
de-duplicate.  Sequence-valued elements instead raise a type error (see the
counterexample). -/
theorem C8_amended_sequence_union :
    (∀ (list1 list2 : JValue), noSeqElems list1 = true → noSeqElems list2 = true →
      merge_lists list1 list2 = .ok (unionFirstSeen (aappend list1 list2))) ∧
    merge_lists (jarr [.str "A", .str "B"]) (jarr [.str "B", .str "C"]) =
      .ok (jarr [.str "A", .str "B", .str "C"]) ∧
    merge_lists (jarr [jobj [("a", .num 1), ("b", .num 2)]])
        (jarr [jobj [("b", .num 2), ("a", .num 1)]]) =
      .ok (jarr [jobj [("a", .num 1), ("b", .num 2)]]) := by
  refine ⟨?_, by decide, by decide⟩
  intro list1 list2 h1 h2
  exact mergeGo_unionFirstSeen (aappend list1 list2) [] (noSeq_aappend h1 h2)

/-- C8 witness: the amended statement applied to `[A,B]` and `[B,C]`. -/
theorem C8_amended_sequence_union_witness :
    merge_lists (jarr [.str "A", .str "B"]) (jarr [.str "B", .str "C"]) =
      .ok (unionFirstSeen (aappend (jarr [.str "A", .str "B"]) (jarr [.str "B", .str "C"]))) :=
  C8_amended_sequence_union.1 (jarr [.str "A", .str "B"]) (jarr [.str "B", .str "C"])
    (by decide) (by decide)

/-- C2: a successful remote fetch returns the raw unparsed bytes (selected by
chopping the last character of each index match and taking the plain string
maximum), `parseProfileInclude` caches and returns those bytes as the
"profile", and the resolver then crashes on them with an `AttributeError`
instead of merging a parsed document; a failing transport instead degrades to
`None` without raising, falling through to the local search. -/
theorem C2_remote_returns_unparsed_bytes :
    getProfileFromRepo envRemoteC "C.json" .null St.empty =
      (.bytes "RAW",
        ⟨[], [], [defaultrepository, "http://redfish.dmtf.org/profiles/C.v1_0_0.jso"]⟩) ∧
    parseProfileInclude envRemoteC "C" .onil [] true St.empty =
      .ok (.bytes "RAW",
        ⟨[("C.json", .bytes "RAW")], [],
          [defaultrepository, "http://redfish.dmtf.org/profiles/C.v1_0_0.jso"]⟩) ∧
    getProfiles envRemoteC 2 (.val profileB) [] none true St.empty =
      .error (.py .attributeError) ∧
    getProfileFromRepo envNoNet "C.json" .null St.empty =
      (.val .null, ⟨[], [], [defaultrepository]⟩) :=
  ⟨by decide, by decide, by decide, by decide⟩

/-- C3: a resource-scoped import whose resolved dependency has a `Resources`
mapping lacking the requested resource type skips the merge, leaves the
requesting object untouched, logs exactly one missing-resource error, and the
loop continues with the remaining entries; the concrete `Fan`/`Chassis`
scenario resolves to completion with one logged error and the profile
unchanged. -/
theorem C3_scoped_missing_resource_skipped :
    (∀ (env : Env) (dirs : List String) (online : Bool) (rname tname : String)
      (tpi rest obj : JValue) (st st1 : St) (pd : PData) (p r : JValue),
      parseProfileInclude env tname tpi dirs online st = .ok (pd, st1) →
      pd = .val p → truthy pd = true → isDict p = true →
      getKey? p "Resources" = some r → isDict r = true → hasKey r rname = false →
      foldScoped env dirs online rname (.ocons tname tpi rest) obj st =
        foldScoped env dirs online rname rest obj
          (st1.addLog (.resourceMissingError tname rname))) ∧
    getProfiles envLocalDep 3 (.val profileFanScoped) ["d"] none false St.empty =
      .ok ([], [], .val profileFanScoped, [.str "A"],
        ⟨[("Dep.json", .val depChassis)], [.resourceMissingError "Dep" "Fan"], []⟩) := by
  constructor
  · intro env dirs online rname tname tpi rest obj st st1 pd p r hparse hpd htr hp hres hr hk
    subst hpd
    rw [foldScoped, hparse]
    simp only [liftPy, exBind_ok, htr, if_true]
    simp [hp, getKeyD, hres, hr, hk]
  · decide

/-- C3 witness: the general statement applied to the `Fan` request against
the local `Dep` profile, whose `Resources` holds only `Chassis`. -/
theorem C3_scoped_missing_resource_skipped_witness :
    foldScoped envLocalDep ["d"] false "Fan" (.ocons "Dep" .onil .onil) .onil St.empty =
      foldScoped envLocalDep ["d"] false "Fan" .onil .onil
        ((⟨[("Dep.json", .val depChassis)], [], []⟩ : St).addLog
          (.resourceMissingError "Dep" "Fan")) :=
  C3_scoped_missing_resource_skipped.1 envLocalDep ["d"] false "Fan" "Dep" .onil .onil .onil
    St.empty ⟨[("Dep.json", .val depChassis)], [], []⟩ (.val depChassis) depChassis
    (jobj [("Chassis", jobj [("ReadRequirement", .str "Recommended")])])
    (by decide) (by decide) (by decide) (by decide) (by decide) (by decide) (by decide)

/-- C5: a profile whose `ProfileName` already appears in the ancestor chain
resolves immediately to two empty sequences with one cyclical-import error
logged, the profile, the cache and the chain untouched, and no recursion (the
result is independent of the fuel, i.e. of the recursion budget). -/
theorem C5_cycle_guard_returns_empty :
    ∀ (env : Env) (fuel : Nat) (d : JValue) (dirs : List String)
      (chain : Option (List JValue)) (online : Bool) (st : St),
    isDict d = true →
    jmem (getKeyD d "ProfileName" .null) (chain.getD []) = true →
    getProfiles env (fuel + 1) (.val d) dirs chain online st =
      .ok ([], [], .val d, chain.getD [],
        st.addLog (.cyclicalImportError (chain.getD []) (getKeyD d "ProfileName" .null))) := by
  intro env fuel d dirs chain online st hd hmem
  show getProfilesBody _ env (.val d) dirs chain online st = _
  unfold getProfilesBody
  simp [hd, hmem]

/-- C5 witness: a profile named `A` resolved with `A` already in the chain,
at the smallest recursion budget. -/
theorem C5_cycle_guard_returns_empty_witness :
    getProfiles envNoNet 1 (.val (jobj [("ProfileName", .str "A")])) []
        (some [.str "A"]) false St.empty =
      .ok ([], [], .val (jobj [("ProfileName", .str "A")]), (some [.str "A"]).getD [],
        St.empty.addLog (.cyclicalImportError ((some [.str "A"]).getD [])
          (getKeyD (jobj [("ProfileName", .str "A")]) "ProfileName" .null))) :=
  C5_cycle_guard_returns_empty envNoNet 0 (jobj [("ProfileName", .str "A")]) []
    (some [.str "A"]) false St.empty (by decide) (by decide)

/-- C6: the locator checks the cache first and returns any cached outcome
(including a cached `None`) with the state untouched — no fetch, no file read,
no log; every returned outcome is in the cache under `name + '.json'` when the
call returns; hence a second call for the same name (with any reference,
directories or online flag) returns the same outcome and changes nothing, so
a given filename is fetched and parsed at most once per run. -/
theorem C6_cache_hit_and_store :
    (∀ (env : Env) (tname : String) (tpi : JValue) (dirs : List String) (online : Bool)
      (st : St) (d : PData),
      isDict tpi = true →
      cacheLookup st.cache (tname ++ "." ++ "json") = some d →
      parseProfileInclude env tname tpi dirs online st = .ok (d, st)) ∧
    (∀ (env : Env) (tname : String) (tpi : JValue) (dirs : List String) (online : Bool)
      (st : St) (d : PData) (st2 : St),
      parseProfileInclude env tname tpi dirs online st = .ok (d, st2) →
      cacheLookup st2.cache (tname ++ "." ++ "json") = some d) ∧
    (∀ (env : Env) (tname : String) (tpi tpi2 : JValue) (dirs dirs2 : List String)
      (online online2 : Bool) (st : St) (d : PData) (st2 : St),
      isDict tpi2 = true →
      parseProfileInclude env tname tpi dirs online st = .ok (d, st2) →
      parseProfileInclude env tname tpi2 dirs2 online2 st2 = .ok (d, st2)) := by
  have hA : ∀ (env : Env) (tname : String) (tpi : JValue) (dirs : List String) (online : Bool)
      (st : St) (d : PData),
      isDict tpi = true →
      cacheLookup st.cache (tname ++ "." ++ "json") = some d →
      parseProfileInclude env tname tpi dirs online st = .ok (d, st) := by
    intro env tname tpi dirs online st d htpi hcl
    unfold parseProfileInclude
    simp [pyGetD, htpi, exBind_ok, hcl]
  have hB : ∀ (env : Env) (tname : String) (tpi : JValue) (dirs : List String) (online : Bool)
      (st : St) (d : PData) (st2 : St),
      parseProfileInclude env tname tpi dirs online st = .ok (d, st2) →
      cacheLookup st2.cache (tname ++ "." ++ "json") = some d := by
    intro env tname tpi dirs online st d st2 h
    unfold parseProfileInclude at h
    cases htpi : isDict tpi
    · simp [pyGetD, htpi, exBind_err] at h
    · simp only [pyGetD, htpi, if_true, exBind_ok] at h
      cases hcl : cacheLookup st.cache (tname ++ "." ++ "json") with
      | some d0 =>
          simp only [hcl, exPure_ok, Except.ok.injEq, Prod.mk.injEq] at h
          obtain ⟨h1, h2⟩ := h
          rw [← h2, ← h1]
          exact hcl
      | none =>
          simp only [hcl] at h
          rcases hgp : (if online then
              getProfileFromRepo env (tname ++ "." ++ "json")
                (getKeyD tpi "Repository" .null) st
            else (PData.val .null, st)) with ⟨data, st1⟩
          rw [hgp] at h
          cases data with
          | bytes b =>
              simp only [exPure_ok, Except.ok.injEq, Prod.mk.injEq] at h
              obtain ⟨h1, h2⟩ := h
              rw [← h2, ← h1]
              exact cacheLookup_cacheSet_self _ _ _
          | val v =>
              cases v with
              | null =>
                  cases hls : getProfilesMatchingName env (tname ++ "." ++ "json") dirs with
                  | nil =>
                      simp only [hls, exPure_ok, Except.ok.injEq, Prod.mk.injEq] at h
                      obtain ⟨h1, h2⟩ := h
                      rw [← h2, ← h1]
                      exact cacheLookup_cacheSet_self _ _ _
                  | cons t ts =>
                      simp only [hls] at h
                      rcases hscan : localScan (t :: ts) (1, 0, 0) (.val .null) with _ | ⟨maxv, dat⟩
                      · rw [hscan] at h
                        simp [exBind_err] at h
                      · rw [hscan] at h
                        simp only [exBind_ok, exPure_ok, Except.ok.injEq, Prod.mk.injEq] at h
                        obtain ⟨h1, h2⟩ := h
                        rw [← h2, ← h1]
                        by_cases hv : verLt maxv
                            (splitVersionString (getKeyD tpi "MinVersion" (.str "1.0.0"))) = true
                        · simp only [hv, if_true]
                          exact cacheLookup_cacheSet_self _ _ _
                        · simp only [hv, if_false, Bool.false_eq_true]
                          exact cacheLookup_cacheSet_self _ _ _
              | _ =>
                  simp only [exPure_ok, Except.ok.injEq, Prod.mk.injEq] at h
                  obtain ⟨h1, h2⟩ := h
                  rw [← h2, ← h1]
                  exact cacheLookup_cacheSet_self _ _ _
  exact ⟨hA, hB, fun env tname tpi tpi2 dirs dirs2 online online2 st d st2 htpi2 h =>
    hA env tname tpi2 dirs2 online2 st2 d htpi2 (hB env tname tpi dirs online st d st2 h)⟩

/-- C6 witness: a state whose cache already holds a `None` outcome for
`X.json` is returned as-is; a fresh lookup of the unknown `X` stores its
`None` outcome; and the second call after a fresh lookup changes nothing. -/
theorem C6_cache_hit_and_store_witness :
    parseProfileInclude envNoNet "X" .onil [] false ⟨[("X.json", .val .null)], [], []⟩ =
      .ok (.val .null, ⟨[("X.json", .val .null)], [], []⟩) ∧
    cacheLookup (⟨[("X.json", .val .null)], [.importError "X" .null], []⟩ : St).cache
      ("X" ++ "." ++ "json") = some (.val .null) ∧
    parseProfileInclude envNoNet "X" .onil [] false
        ⟨[("X.json", .val .null)], [.importError "X" .null], []⟩ =
      .ok (.val .null, ⟨[("X.json", .val .null)], [.importError "X" .null], []⟩) :=
  ⟨C6_cache_hit_and_store.1 envNoNet "X" .onil [] false ⟨[("X.json", .val .null)], [], []⟩
      (.val .null) (by decide) (by decide),
   C6_cache_hit_and_store.2.1 envNoNet "X" .onil [] false St.empty (.val .null)
      ⟨[("X.json", .val .null)], [.importError "X" .null], []⟩ (by decide),
   C6_cache_hit_and_store.2.2 envNoNet "X" .onil .onil [] [] false false St.empty (.val .null)
      ⟨[("X.json", .val .null)], [.importError "X" .null], []⟩ (by decide) (by decide)⟩

/-- C10: the resolver resolves every transitive dependency with remote lookup
disabled: for all inputs it agrees with the spec-side resolver variant whose
transitive flag is `false`, whatever the top-level flag; and it genuinely
differs from the forwarding variant (transitive flag `true`) on an environment
whose transitive dependency is only available remotely. -/
theorem C10_transitive_resolved_offline :
    (∀ (fuel : Nat) (env : Env) (profile : PData) (dirs : List String)
      (chain : Option (List JValue)) (online : Bool) (st : St),
      getProfiles env fuel profile dirs chain online st =
        getProfilesG env fuel profile dirs chain online false st) ∧
    getProfilesG envRemoteC 3 (.val profileA) ["d"] none true true St.empty =
      .error (.py .attributeError) ∧
    getProfiles envRemoteC 3 (.val profileA) ["d"] none true St.empty ≠
      getProfilesG envRemoteC 3 (.val profileA) ["d"] none true true St.empty := by
  refine ⟨?_, by decide, by decide⟩
  intro fuel
  induction fuel with
  | zero => intro env profile dirs chain online st; rfl
  | succ n ih =>
      intro env profile dirs chain online st
      have hr : (fun p d c s => getProfiles env n p d (some c) false s) =
          (fun p d c s => getProfilesG env n p d (some c) false false s) := by
        funext p d c s
        exact ih env p d (some c) false s
      calc getProfiles env (n + 1) profile dirs chain online st
          = getProfilesBody (fun p d c s => getProfiles env n p d (some c) false s)
              env profile dirs chain online st := rfl
        _ = getProfilesBody (fun p d c s => getProfilesG env n p d (some c) false false s)
              env profile dirs chain online st := by rw [hr]
        _ = getProfilesG env (n + 1) profile dirs chain online false st := rfl
